import Mathlib

/-!
Shallow embedding of the Spanish 21 Monte-Carlo simulator (Spanish21.py):
the card/shoe/hand model, hand valuation with ace reduction, the basic-strategy
policy, the side-bet evaluator, dealer play, winner determination and the
round engine, together with theorems about them.

Randomness (random.shuffle) is modelled as an oracle stream of shuffled decks
stored in the Shoe: the k-th reshuffle installs entry k of the stream.
Theorems that depend on the shuffle being a shuffle assume each stream entry
is a permutation of the freshly built multi-deck shoe (Shoe.WF).

The player-facing loops (play_hand, play_dealer_hand) are unbounded while
loops in the source; they are embedded with an explicit fuel parameter and we
prove that a fixed fuel (22 resp. 18) always suffices, which is the
termination argument for the source loops.
-/

namespace Spanish21

inductive Suit : Type
  | hearts
  | diamonds
  | clubs
  | spades
deriving DecidableEq, Inhabited

inductive Rank : Type
  | A
  | N2
  | N3
  | N4
  | N5
  | N6
  | N7
  | N8
  | N9
  | J
  | Q
  | K
deriving DecidableEq, Inhabited

structure Card where
  rank : Rank
  suit : Suit
deriving DecidableEq, Inhabited

/-- Blackjack value of a card: face cards are 10, an ace is 11 (to be
adjusted during hand evaluation), a numeral card is its numeral. -/
def Card.value (c : Card) : Nat :=
  match c.rank with
  | .J => 10
  | .Q => 10
  | .K => 10
  | .A => 11
  | .N2 => 2
  | .N3 => 3
  | .N4 => 4
  | .N5 => 5
  | .N6 => 6
  | .N7 => 7
  | .N8 => 8
  | .N9 => 9

def allRanks : List Rank := [.A, .N2, .N3, .N4, .N5, .N6, .N7, .N8, .N9, .J, .Q, .K]

def allSuits : List Suit := [.hearts, .diamonds, .clubs, .spades]

/-- One Spanish 21 deck (no tens): 4 suits times 12 ranks, in the order the
source builds it (suits outer loop, ranks inner loop). -/
def oneDeck : List Card :=
  (allSuits.map (fun s => allRanks.map (fun r => { rank := r, suit := s }))).flatten

/-- The freshly built shoe contents before shuffling: num_decks copies of a
Spanish 21 deck, in construction order. -/
def fullShoe : Nat → List Card
  | 0 => []
  | n + 1 => oneDeck ++ fullShoe n

/-- The shoe. The source shuffles in place with random.shuffle; here the
shuffle results are an oracle stream: the k-th reshuffle installs
shuffles k as the card sequence. -/
structure Shoe where
  num_decks : Nat
  cards : List Card
  shuffles : Nat → List Card
  reshuffleCount : Nat
deriving Inhabited

/-- Rebuild the shoe: discard the remaining cards and install the next
oracle entry (the shuffled fresh multi-deck shoe). -/
def Shoe.reshuffle (s : Shoe) : Shoe :=
  { s with cards := s.shuffles s.reshuffleCount, reshuffleCount := s.reshuffleCount + 1 }

/-- Pop the card at the end of the shoe sequence. none models the pop from
an empty list. -/
def dealFrom (s1 : Shoe) : Option (Card × Shoe) :=
  match s1.cards.getLast? with
  | none => none
  | some c => some (c, { s1 with cards := s1.cards.dropLast })

/-- Deal one card: reshuffle first if at most 50 cards remain, then pop the
card at the end of the sequence. -/
def Shoe.deal (s : Shoe) : Option (Card × Shoe) :=
  dealFrom (if s.cards.length ≤ 50 then s.reshuffle else s)

def Shoe.cards_remaining (s : Shoe) : Nat := s.cards.length

/-- Well-formed shuffle oracle: every reshuffle result is a permutation of
the freshly built multi-deck shoe. -/
def Shoe.WF (s : Shoe) : Prop := ∀ i, (s.shuffles i).Perm (fullShoe s.num_decks)

structure Hand where
  cards : List Card
  bet : ℚ
  surrendered : Bool
  is_blackjack : Bool
deriving DecidableEq, Inhabited

def Hand.empty : Hand := { cards := [], bet := 0, surrendered := false, is_blackjack := false }

def Hand.add_card (h : Hand) (c : Card) : Hand := { h with cards := h.cards ++ [c] }

/-- Sum of the raw card values of a list of cards (aces counted as 11). -/
def cardSum (l : List Card) : Nat := (l.map Card.value).sum

/-- Number of aces in a list of cards. -/
def aceCt (l : List Card) : Nat := l.countP (fun c => decide (c.rank = Rank.A))

/-- The ace-adjustment loop of Hand.value: while the total exceeds 21 and an
ace is still counted as 11, subtract 10 and use up one ace. Returns the final
total together with the number of aces still counted as 11. -/
def reduceAces : Nat → Nat → Nat × Nat
  | total, 0 => (total, 0)
  | total, aces + 1 =>
    if 21 < total then reduceAces (total - 10) aces else (total, aces + 1)

/-- Hand value: raw total adjusted for aces. -/
def Hand.value (h : Hand) : Nat := (reduceAces (cardSum h.cards) (aceCt h.cards)).1

/-- A hand is hard when no ace is (still) usable as 11. -/
def Hand.is_hard (h : Hand) : Bool :=
  if aceCt h.cards = 0 then true
  else decide ((reduceAces (cardSum h.cards) (aceCt h.cards)).2 = 0)

/-- A hand is soft when it is not hard and contains an ace. -/
def Hand.is_soft (h : Hand) : Bool :=
  !h.is_hard && h.cards.any (fun c => decide (c.rank = Rank.A))

def Hand.is_bust (h : Hand) : Bool := decide (21 < h.value)

def Hand.is_21 (h : Hand) : Bool := decide (h.value = 21)

def Hand.card_count (h : Hand) : Nat := h.cards.length

structure MatchResult where
  one_nonsuited : Nat
  two_nonsuited : Nat
  one_suited : Nat
  one_suited_one_nonsuited : Nat
  two_suited : Nat
deriving DecidableEq, Inhabited

def MatchResult.init : MatchResult := ⟨0, 0, 0, 0, 0⟩

structure Stats where
  hands_played : Nat
  hands_won : Nat
  hands_lost : Nat
  hands_pushed : Nat
  hands_surrendered : Nat
  top_matches : MatchResult
  bottom_matches : MatchResult
  top_bets_hit : Nat
  bottom_bets_hit : Nat
  total_top_bet_payout : ℚ
  total_bottom_bet_payout : ℚ
  total_top_bet_wagered : ℚ
  total_bottom_bet_wagered : ℚ
  total_regular_wagered : ℚ
  total_regular_payout : ℚ
deriving DecidableEq, Inhabited

def Stats.init : Stats :=
  { hands_played := 0, hands_won := 0, hands_lost := 0, hands_pushed := 0
    hands_surrendered := 0, top_matches := MatchResult.init
    bottom_matches := MatchResult.init, top_bets_hit := 0, bottom_bets_hit := 0
    total_top_bet_payout := 0, total_bottom_bet_payout := 0
    total_top_bet_wagered := 0, total_bottom_bet_wagered := 0
    total_regular_wagered := 0, total_regular_payout := 0 }

/-- Count, over the player cards, rank matches with the dealer card split
into (suited, nonsuited). -/
def evaluate_match (player_cards : List Card) (dealer_card : Card) : Nat × Nat :=
  (player_cards.countP (fun c => decide (c.rank = dealer_card.rank ∧ c.suit = dealer_card.suit)),
   player_cards.countP (fun c => decide (c.rank = dealer_card.rank ∧ c.suit ≠ dealer_card.suit)))

/-- Side-bet payout multiplier from the (suited, nonsuited) match counts,
first applicable rule wins. -/
def calculate_match_payout (m : Nat × Nat) : Nat :=
  if m.1 = 2 then 24
  else if m.1 = 1 ∧ m.2 = 1 then 15
  else if m.1 = 1 then 12
  else if m.2 = 2 then 6
  else if m.2 = 1 then 3
  else 0

/-- Increment the match-category accumulator, same priority order as the
payout table. -/
def update_match_stats (m : Nat × Nat) (mr : MatchResult) : MatchResult :=
  if m.1 = 2 then { mr with two_suited := mr.two_suited + 1 }
  else if m.1 = 1 ∧ m.2 = 1 then
    { mr with one_suited_one_nonsuited := mr.one_suited_one_nonsuited + 1 }
  else if m.1 = 1 then { mr with one_suited := mr.one_suited + 1 }
  else if m.2 = 2 then { mr with two_nonsuited := mr.two_nonsuited + 1 }
  else if m.2 = 1 then { mr with one_nonsuited := mr.one_nonsuited + 1 }
  else mr

inductive Action : Type
  | hit
  | stand
  | surrender
deriving DecidableEq, Inhabited

def surrenderRanks : List Rank := [.N7, .N8, .N9, .J, .Q, .K, .A]

/-- Auto-surrender guard of the basic strategy: only on a two-card hand,
only with the auto-surrender option and a paying top match, on hard 13 to 16
against dealer 7, 8, 9, J, Q, K or A. -/
def surrGuard (player_hand : Hand) (dealer_upcard : Card)
    (auto_surrender has_top_match : Bool) : Bool :=
  auto_surrender && decide (player_hand.cards.length = 2) && has_top_match
    && player_hand.is_hard && decide (13 ≤ player_hand.value)
    && decide (player_hand.value ≤ 16) && decide (dealer_upcard.rank ∈ surrenderRanks)

/-- Spanish 21 basic strategy. -/
def should_hit (player_hand : Hand) (dealer_upcard : Card)
    (auto_surrender has_top_match : Bool) : Action :=
  let player_value := player_hand.value
  let dealer_value := dealer_upcard.value
  if surrGuard player_hand dealer_upcard auto_surrender has_top_match then .surrender
  else if player_hand.is_soft then
    if player_value ≤ 17 then .hit
    else if player_value = 18 then
      if 9 ≤ dealer_value then .hit else .stand
    else .stand
  else
    if player_value ≤ 11 then .hit
    else if player_value = 12 then
      if dealer_value = 4 ∨ dealer_value = 5 ∨ dealer_value = 6 then .stand else .hit
    else if 13 ≤ player_value ∧ player_value ≤ 16 then
      if dealer_value ≤ 6 then .stand else .hit
    else .stand

/-- Play out one player hand with basic strategy. The source loop is
unbounded; fuel bounds the number of iterations and none signals fuel
exhaustion (or a failed deal). Fuel 22 is proved sufficient below. -/
def play_hand : Nat → Hand → Card → Bool → Bool → Shoe → Option (Hand × Shoe)
  | 0, _, _, _, _, _ => none
  | fuel + 1, hand, dealer_upcard, auto_surrender, has_top_match, shoe =>
    match should_hit hand dealer_upcard auto_surrender has_top_match with
    | .surrender => some ({ hand with surrendered := true }, shoe)
    | .stand => some (hand, shoe)
    | .hit =>
      match shoe.deal with
      | none => none
      | some (c, shoe') =>
        let hand' := hand.add_card c
        if hand'.is_bust then some (hand', shoe')
        else play_hand fuel hand' dealer_upcard auto_surrender has_top_match shoe'

/-- The dealer draw condition: value below 17, or exactly 17 while soft. -/
def dealer_hits (h : Hand) : Bool :=
  decide (h.value < 17) || (decide (h.value = 17) && h.is_soft)

/-- Dealer play: draw while dealer_hits holds. Fuel 18 is proved sufficient
below. -/
def play_dealer_hand : Nat → Hand → Shoe → Option (Hand × Shoe)
  | 0, _, _ => none
  | fuel + 1, dealer_hand, shoe =>
    if dealer_hits dealer_hand then
      match shoe.deal with
      | none => none
      | some (c, shoe') => play_dealer_hand fuel (dealer_hand.add_card c) shoe'
    else some (dealer_hand, shoe)

/-- Winner determination: payout multiplier for one player hand, together
with the updated statistics (the source mutates the counter in place). -/
def determine_winner (player_hand dealer_hand : Hand) (stats : Stats) : ℚ × Stats :=
  if player_hand.surrendered then
    (1 / 2, { stats with hands_surrendered := stats.hands_surrendered + 1 })
  else if player_hand.is_bust then
    (0, { stats with hands_lost := stats.hands_lost + 1 })
  else
    let player_value := player_hand.value
    if player_hand.cards.length = 2 ∧ player_value = 21 then
      (5 / 2, { stats with hands_won := stats.hands_won + 1 })
    else if player_value = 21 ∧ player_hand.cards.length = 5 then
      (5 / 2, { stats with hands_won := stats.hands_won + 1 })
    else if player_value = 21 ∧ player_hand.cards.length = 6 then
      (3, { stats with hands_won := stats.hands_won + 1 })
    else if player_value = 21 then
      (2, { stats with hands_won := stats.hands_won + 1 })
    else if dealer_hand.is_bust then
      (2, { stats with hands_won := stats.hands_won + 1 })
    else
      let dealer_value := dealer_hand.value
      if dealer_value < player_value then
        (2, { stats with hands_won := stats.hands_won + 1 })
      else if player_value = dealer_value then
        (1, { stats with hands_pushed := stats.hands_pushed + 1 })
      else
        (0, { stats with hands_lost := stats.hands_lost + 1 })

/-- Top side bet for one hand against the dealer upcard: (paying match
occurred, payout, stats). The wager accrues whenever the bet is positive. -/
def sideBetTop (h : Hand) (dealer_card0 : Card) (top_bet : ℚ) (stats : Stats) :
    Bool × ℚ × Stats :=
  if 0 < top_bet then
    let tm := evaluate_match h.cards dealer_card0
    let tp := calculate_match_payout tm
    if 0 < tp then
      (true, top_bet * tp,
       { stats with top_bets_hit := stats.top_bets_hit + 1,
                    total_top_bet_payout := stats.total_top_bet_payout + top_bet * tp,
                    top_matches := update_match_stats tm stats.top_matches,
                    total_top_bet_wagered := stats.total_top_bet_wagered + top_bet })
    else
      (false, 0, { stats with total_top_bet_wagered := stats.total_top_bet_wagered + top_bet })
  else (false, 0, stats)

/-- Bottom side bet for one hand against the dealer hole card. -/
def sideBetBottom (h : Hand) (dealer_card1 : Card) (bottom_bet : ℚ) (stats : Stats) :
    ℚ × Stats :=
  if 0 < bottom_bet then
    let bm := evaluate_match h.cards dealer_card1
    let bp := calculate_match_payout bm
    if 0 < bp then
      (bottom_bet * bp,
       { stats with bottom_bets_hit := stats.bottom_bets_hit + 1,
                    total_bottom_bet_payout := stats.total_bottom_bet_payout + bottom_bet * bp,
                    bottom_matches := update_match_stats bm stats.bottom_matches,
                    total_bottom_bet_wagered := stats.total_bottom_bet_wagered + bottom_bet })
    else
      (0, { stats with total_bottom_bet_wagered := stats.total_bottom_bet_wagered + bottom_bet })
  else (0, stats)

/-- Evaluate the top and bottom side bets for one hand against the dealer's
two cards: returns (hand had a paying top match, side-bet payout, stats). -/
def sideBetOne (h : Hand) (dealer_card0 dealer_card1 : Card)
    (top_bet bottom_bet : ℚ) (stats : Stats) : Bool × ℚ × Stats :=
  let t := sideBetTop h dealer_card0 top_bet stats
  let b := sideBetBottom h dealer_card1 bottom_bet t.2.2
  (t.1, t.2.1 + b.1, b.2)

/-- Side-bet evaluation over all player hands, in seat order: list of
per-hand top-match flags, total side-bet payout, updated stats. -/
def evalSideBets (hands : List Hand) (dealer_card0 dealer_card1 : Card)
    (top_bet bottom_bet : ℚ) (stats : Stats) : List Bool × ℚ × Stats :=
  match hands with
  | [] => ([], 0, stats)
  | h :: rest =>
    let one := sideBetOne h dealer_card0 dealer_card1 top_bet bottom_bet stats
    let more := evalSideBets rest dealer_card0 dealer_card1 top_bet bottom_bet one.2.2
    (one.1 :: more.1, one.2.1 + more.2.1, more.2.2)

/-- Main play phase: each (hand, top-match flag) pair in seat order is marked
blackjack when it is a natural two-card 21, otherwise played out with basic
strategy. -/
def playAll : List (Hand × Bool) → Card → Bool → Shoe → Option (List Hand × Shoe)
  | [], _, _, shoe => some ([], shoe)
  | (h, flag) :: rest, dealer_upcard, auto_surrender, shoe =>
    let step : Option (Hand × Shoe) :=
      if h.cards.length = 2 ∧ h.value = 21 then some ({ h with is_blackjack := true }, shoe)
      else play_hand 22 h dealer_upcard auto_surrender flag shoe
    match step with
    | none => none
    | some (h', shoe') =>
      match playAll rest dealer_upcard auto_surrender shoe' with
      | none => none
      | some (rest', shoe'') => some (h' :: rest', shoe'')

/-- Settlement of a single player hand: wager accrual, then the dealer
blackjack branch (push for a flagged blackjack hand, loss otherwise) or
regular winner determination, exactly as the source does. -/
def settleOne (h dealer_hand : Hand) (dealer_has_blackjack : Bool)
    (regular_bet : ℚ) (stats : Stats) : ℚ × Stats :=
  if dealer_has_blackjack then
    if h.is_blackjack then
      (regular_bet,
       { stats with
           total_regular_wagered := stats.total_regular_wagered + regular_bet,
           hands_pushed := stats.hands_pushed + 1,
           total_regular_payout := stats.total_regular_payout + regular_bet })
    else
      (0, { stats with
              total_regular_wagered := stats.total_regular_wagered + regular_bet,
              hands_lost := stats.hands_lost + 1 })
  else
    (regular_bet * (determine_winner h dealer_hand
        { stats with total_regular_wagered := stats.total_regular_wagered + regular_bet }).1,
     { (determine_winner h dealer_hand
          { stats with total_regular_wagered := stats.total_regular_wagered + regular_bet }).2 with
         total_regular_payout :=
           (determine_winner h dealer_hand
              { stats with total_regular_wagered := stats.total_regular_wagered + regular_bet }).2.total_regular_payout
             + regular_bet * (determine_winner h dealer_hand
                 { stats with total_regular_wagered := stats.total_regular_wagered + regular_bet }).1 })

/-- Settlement loop over the player hands. -/
def settle : List Hand → Hand → Bool → ℚ → Stats → ℚ × Stats
  | [], _, _, _, stats => (0, stats)
  | h :: rest, dealer_hand, dealer_has_blackjack, regular_bet, stats =>
    let one := settleOne h dealer_hand dealer_has_blackjack regular_bet stats
    let more := settle rest dealer_hand dealer_has_blackjack regular_bet one.2
    (one.1 + more.1, more.2)

/-- Result of one simulated round. The source returns only the payout and
mutates the simulator's stats and shoe; the remaining fields expose the
round's final local state for specification purposes. -/
structure RoundResult where
  payout : ℚ
  stats : Stats
  shoe : Shoe
  player_hands : List Hand
  dealer_hand : Hand
  dealer_blackjack : Bool
deriving Inhabited

/-- Deal one card to each hand in seat order. -/
def dealToEach : List Hand → Shoe → Option (List Hand × Shoe)
  | [], shoe => some ([], shoe)
  | h :: rest, shoe =>
    match shoe.deal with
    | none => none
    | some (c, shoe') =>
      match dealToEach rest shoe' with
      | none => none
      | some (rest', shoe'') => some (h.add_card c :: rest', shoe'')

/-- One full round with num_hands simultaneous player hands: deal, side
bets, player play, dealer play, settlement, statistics. -/
def simulate_round (num_hands : Nat) (regular_bet top_bet bottom_bet : ℚ)
    (auto_surrender : Bool) (stats : Stats) (shoe : Shoe) : Option RoundResult :=
  match dealToEach (List.replicate num_hands { Hand.empty with bet := regular_bet }) shoe with
  | none => none
  | some (hands1, shoe1) =>
    match shoe1.deal with
    | none => none
    | some (up, shoe2) =>
      match dealToEach hands1 shoe2 with
      | none => none
      | some (hands2, shoe3) =>
        match shoe3.deal with
        | none => none
        | some (hole, shoe4) =>
          let dealer0 := (Hand.empty.add_card up).add_card hole
          let dealer_has_blackjack := decide (dealer0.cards.length = 2) && decide (dealer0.value = 21)
          let side := evalSideBets hands2 up hole top_bet bottom_bet stats
          match (if dealer_has_blackjack then some (hands2, shoe4)
                 else playAll (hands2.zip side.1) up auto_surrender shoe4) with
          | none => none
          | some (hands3, shoe5) =>
            match (if !dealer_has_blackjack
                      && hands3.any (fun h => !h.is_bust && !h.surrendered) then
                     play_dealer_hand 18 dealer0 shoe5
                   else some (dealer0, shoe5)) with
            | none => none
            | some (dealerF, shoe6) =>
              let fin := settle hands3 dealerF dealer_has_blackjack regular_bet side.2.2
              some { payout := side.2.1 + fin.1,
                     stats := { fin.2 with hands_played := fin.2.hands_played + num_hands },
                     shoe := shoe6,
                     player_hands := hands3,
                     dealer_hand := dealerF,
                     dealer_blackjack := dealer_has_blackjack }

/-! Arithmetic facts about the ace-reduction loop. -/

lemma reduceAces_ex : ∀ (a t : Nat), ∃ k, k ≤ a ∧ (reduceAces t a).1 + 10 * k = t := by
  intro a
  induction a with
  | zero => intro t; exact ⟨0, Nat.le_refl 0, by simp [reduceAces]⟩
  | succ a ih =>
    intro t
    by_cases h : 21 < t
    · obtain ⟨k, hk, he⟩ := ih (t - 10)
      refine ⟨k + 1, by omega, ?_⟩
      simp only [reduceAces, if_pos h]
      omega
    · exact ⟨0, Nat.zero_le _, by simp [reduceAces, h]⟩

lemma reduceAces_le21 : ∀ (a t : Nat), t ≤ 21 + 10 * a → (reduceAces t a).1 ≤ 21 := by
  intro a
  induction a with
  | zero => intro t ht; simpa [reduceAces] using ht
  | succ a ih =>
    intro t ht
    by_cases h : 21 < t
    · simp only [reduceAces, if_pos h]
      exact ih (t - 10) (by omega)
    · simp only [reduceAces, if_neg h]
      omega

lemma reduceAces_max : ∀ (a t k : Nat), k ≤ a → t ≤ 21 + 10 * k →
    t ≤ (reduceAces t a).1 + 10 * k := by
  intro a
  induction a with
  | zero => intro t k _ _; simp [reduceAces]
  | succ a ih =>
    intro t k hk ht
    by_cases h : 21 < t
    · match k with
      | 0 => omega
      | k + 1 =>
        have := ih (t - 10) k (by omega) (by omega)
        simp only [reduceAces, if_pos h]
        omega
    · simp [reduceAces, h]

lemma reduceAces_eq : ∀ (a t : Nat),
    (reduceAces t a).2 ≤ a ∧ (reduceAces t a).1 + 10 * (a - (reduceAces t a).2) = t := by
  intro a
  induction a with
  | zero => intro t; simp [reduceAces]
  | succ a ih =>
    intro t
    by_cases h : 21 < t
    · obtain ⟨h1, h2⟩ := ih (t - 10)
      simp only [reduceAces, if_pos h]
      omega
    · simp [reduceAces, h]

lemma reduceAces_pos_le : ∀ (a t : Nat), 0 < (reduceAces t a).2 → (reduceAces t a).1 ≤ 21 := by
  intro a
  induction a with
  | zero => intro t ht; simp [reduceAces] at ht
  | succ a ih =>
    intro t ht
    by_cases h : 21 < t
    · simp only [reduceAces, if_pos h] at ht ⊢
      exact ih (t - 10) ht
    · simp [reduceAces, h] at ht ⊢
      omega

/-! Card and card-list facts. -/

lemma Card.two_le_value (c : Card) : 2 ≤ c.value := by
  rcases c with ⟨r, s⟩
  cases r <;> simp [Card.value]

lemma Card.ace_value (c : Card) (h : c.rank = Rank.A) : c.value = 11 := by
  rcases c with ⟨r, s⟩
  cases r <;> simp_all [Card.value]

lemma cardSum_cons (c : Card) (l : List Card) : cardSum (c :: l) = c.value + cardSum l := by
  simp [cardSum]

lemma aceCt_cons (c : Card) (l : List Card) :
    aceCt (c :: l) = aceCt l + (if c.rank = Rank.A then 1 else 0) := by
  simp [aceCt, List.countP_cons]

lemma aceCt_le_length (l : List Card) : aceCt l ≤ l.length :=
  List.countP_le_length _

lemma cardSum_lb : ∀ l : List Card, 2 * l.length + 9 * aceCt l ≤ cardSum l := by
  intro l
  induction l with
  | nil => simp [cardSum, aceCt]
  | cons c l ih =>
    have h2 := c.two_le_value
    rw [cardSum_cons, aceCt_cons]
    by_cases hA : c.rank = Rank.A
    · have h11 := Card.ace_value c hA
      rw [if_pos hA]
      simp only [List.length_cons]
      omega
    · rw [if_neg hA]
      simp only [List.length_cons]
      omega

/-! Hand valuation facts. -/

lemma length_le_value (h : Hand) : h.cards.length ≤ h.value := by
  obtain ⟨k, hk, he⟩ := reduceAces_ex (aceCt h.cards) (cardSum h.cards)
  have h1 := cardSum_lb h.cards
  have h2 := aceCt_le_length h.cards
  unfold Hand.value
  omega

lemma soft_not_hard (h : Hand) (hs : h.is_soft = true) : h.is_hard = false := by
  simp only [Hand.is_soft, Bool.and_eq_true, Bool.not_eq_true'] at hs
  exact hs.1

lemma soft_aces (h : Hand) (hs : h.is_soft = true) :
    aceCt h.cards ≠ 0 ∧ (reduceAces (cardSum h.cards) (aceCt h.cards)).2 ≠ 0 := by
  have hh := soft_not_hard h hs
  by_cases h0 : aceCt h.cards = 0
  · simp [Hand.is_hard, h0] at hh
  · refine ⟨h0, fun hz => ?_⟩
    simp [Hand.is_hard, h0, hz] at hh

lemma soft_lb (h : Hand) (hs : h.is_soft = true) : h.cards.length + 10 ≤ h.value := by
  obtain ⟨ha, hr⟩ := soft_aces h hs
  obtain ⟨he1, he2⟩ := reduceAces_eq (aceCt h.cards) (cardSum h.cards)
  have h1 := cardSum_lb h.cards
  have h2 := aceCt_le_length h.cards
  unfold Hand.value
  omega

lemma hard_or_soft (h : Hand) : h.is_hard = true ∨ h.is_soft = true := by
  by_cases hh : h.is_hard = true
  · exact Or.inl hh
  · right
    have hh' : h.is_hard = false := by
      cases hb : h.is_hard
      · rfl
      · exact absurd hb hh
    have h0 : aceCt h.cards ≠ 0 := by
      intro h0
      simp [Hand.is_hard, h0] at hh'
    have : ∃ c ∈ h.cards, (fun c => decide (c.rank = Rank.A)) c = true := by
      have hpos : 0 < aceCt h.cards := Nat.pos_of_ne_zero h0
      rw [aceCt, List.countP_pos_iff] at hpos
      exact hpos
    simp only [Hand.is_soft, Bool.and_eq_true, Bool.not_eq_true', List.any_eq_true]
    exact ⟨hh', this⟩

lemma is_bust_iff (h : Hand) : h.is_bust = true ↔ 21 < h.value := by
  simp [Hand.is_bust]

/-! Example hands used in concrete statements. -/

def handAA9 : Hand :=
  { cards := [⟨.A, .hearts⟩, ⟨.A, .spades⟩, ⟨.N9, .hearts⟩]
    bet := 0, surrendered := false, is_blackjack := false }

def handHard17 : Hand :=
  { cards := [⟨.J, .spades⟩, ⟨.N7, .spades⟩]
    bet := 0, surrendered := false, is_blackjack := false }

def handSurr : Hand :=
  { cards := [⟨.J, .hearts⟩, ⟨.N6, .hearts⟩]
    bet := 0, surrendered := true, is_blackjack := false }

/-- C2: Hand.value returns the best non-bust total under the ace rule: the
value is the raw total minus 10 for some number of aces, it stays at most 21
whenever some choice of ace reductions can achieve that, the reduction is
maximal (no admissible smaller reduction beats it), and when even reducing
every ace leaves the total above 21 the bust total with all aces reduced is
returned; the hand [A,A,9] has value 21. -/
theorem value_is_best_nonbust_total (h : Hand) :
    (∃ k, k ≤ aceCt h.cards ∧ h.value + 10 * k = cardSum h.cards) ∧
    (cardSum h.cards ≤ 21 + 10 * aceCt h.cards → h.value ≤ 21) ∧
    (∀ k, k ≤ aceCt h.cards → cardSum h.cards ≤ 21 + 10 * k →
      cardSum h.cards ≤ h.value + 10 * k) ∧
    (21 + 10 * aceCt h.cards < cardSum h.cards →
      h.value + 10 * aceCt h.cards = cardSum h.cards ∧ 21 < h.value) ∧
    handAA9.value = 21 := by
  unfold Hand.value
  refine ⟨reduceAces_ex _ _, fun ht => reduceAces_le21 _ _ ht,
    fun k hk ht => reduceAces_max _ _ k hk ht, fun ht => ?_, by decide⟩
  obtain ⟨h1, h2⟩ := reduceAces_eq (aceCt h.cards) (cardSum h.cards)
  by_cases hz : (reduceAces (cardSum h.cards) (aceCt h.cards)).2 = 0
  · constructor <;> omega
  · have := reduceAces_pos_le (aceCt h.cards) (cardSum h.cards) (Nat.pos_of_ne_zero hz)
    omega

theorem value_is_best_nonbust_total_witness :
    handAA9.value ≤ 21 ∧ cardSum handAA9.cards ≤ handAA9.value + 10 * 1 := by
  have h := value_is_best_nonbust_total handAA9
  exact ⟨h.2.1 (by decide), h.2.2.1 1 (by decide) (by decide)⟩

/-- C3: is_hard and is_soft are never both true, and for every hand whose
value is at most 21 exactly one of them is true. -/
theorem hard_soft_exclusive (h : Hand) :
    ¬(h.is_hard = true ∧ h.is_soft = true) ∧
    (h.value ≤ 21 → (h.is_hard = true ↔ h.is_soft = false)) := by
  constructor
  · rintro ⟨h1, h2⟩
    have := soft_not_hard h h2
    simp_all
  · intro _
    constructor
    · intro h1
      cases hs : h.is_soft
      · rfl
      · have := soft_not_hard h hs
        simp_all
    · intro h2
      rcases hard_or_soft h with h1 | h1
      · exact h1
      · simp_all

theorem hard_soft_exclusive_witness :
    handHard17.is_hard = true ↔ handHard17.is_soft = false :=
  (hard_soft_exclusive handHard17).2 (by decide)

/-- C4: the side-bet payout multiplier is determined from the suited and
nonsuited match counts by the first applicable rule in priority order
(2 suited: 24; 1 suited and 1 nonsuited: 15; 1 suited only: 12;
2 nonsuited: 6; 1 nonsuited only: 3; otherwise 0), and dealer card 7 of
hearts against player cards [7 of hearts, 7 of clubs] pays 15. -/
theorem match_payout_table (cards : List Card) (dc : Card) :
    ((evaluate_match cards dc).1 = 2 →
      calculate_match_payout (evaluate_match cards dc) = 24) ∧
    ((evaluate_match cards dc).1 = 1 ∧ (evaluate_match cards dc).2 = 1 →
      calculate_match_payout (evaluate_match cards dc) = 15) ∧
    ((evaluate_match cards dc).1 = 1 ∧ (evaluate_match cards dc).2 ≠ 1 →
      calculate_match_payout (evaluate_match cards dc) = 12) ∧
    ((evaluate_match cards dc).1 ≠ 1 ∧ (evaluate_match cards dc).1 ≠ 2 ∧
        (evaluate_match cards dc).2 = 2 →
      calculate_match_payout (evaluate_match cards dc) = 6) ∧
    ((evaluate_match cards dc).1 ≠ 1 ∧ (evaluate_match cards dc).1 ≠ 2 ∧
        (evaluate_match cards dc).2 = 1 →
      calculate_match_payout (evaluate_match cards dc) = 3) ∧
    ((evaluate_match cards dc).1 ≠ 1 ∧ (evaluate_match cards dc).1 ≠ 2 ∧
        (evaluate_match cards dc).2 ≠ 1 ∧ (evaluate_match cards dc).2 ≠ 2 →
      calculate_match_payout (evaluate_match cards dc) = 0) ∧
    calculate_match_payout
      (evaluate_match [⟨.N7, .hearts⟩, ⟨.N7, .clubs⟩] ⟨.N7, .hearts⟩) = 15 := by
  refine ⟨?_, ?_, ?_, ?_, ?_, ?_, by decide⟩ <;>
    intro hc <;> unfold calculate_match_payout <;> split_ifs <;> omega

theorem match_payout_table_witness :
    calculate_match_payout
      (evaluate_match [⟨.N7, .hearts⟩, ⟨.N7, .clubs⟩] ⟨.N7, .hearts⟩) = 15 :=
  (match_payout_table [⟨.N7, .hearts⟩, ⟨.N7, .clubs⟩] ⟨.N7, .hearts⟩).2.1 (by decide)

set_option maxHeartbeats 1000000 in
/-- C5: determine_winner returns the payout multiplier by precedence:
surrendered 0.5; else bust 0; else natural two-card 21 pays 2.5; else
five-card 21 pays 2.5; else six-card 21 pays 3; else any other 21 pays 2;
else dealer bust pays 2; else higher total 2, equal 1, lower 0. -/
theorem determine_winner_table (p d : Hand) (st : Stats) :
    (p.surrendered = true → (determine_winner p d st).1 = 1 / 2) ∧
    (p.surrendered = false → 21 < p.value → (determine_winner p d st).1 = 0) ∧
    (p.surrendered = false → p.value = 21 → p.cards.length = 2 →
      (determine_winner p d st).1 = 5 / 2) ∧
    (p.surrendered = false → p.value = 21 → p.cards.length = 5 →
      (determine_winner p d st).1 = 5 / 2) ∧
    (p.surrendered = false → p.value = 21 → p.cards.length = 6 →
      (determine_winner p d st).1 = 3) ∧
    (p.surrendered = false → p.value = 21 → p.cards.length ≠ 2 →
      p.cards.length ≠ 5 → p.cards.length ≠ 6 → (determine_winner p d st).1 = 2) ∧
    (p.surrendered = false → p.value < 21 → 21 < d.value →
      (determine_winner p d st).1 = 2) ∧
    (p.surrendered = false → p.value < 21 → d.value ≤ 21 → d.value < p.value →
      (determine_winner p d st).1 = 2) ∧
    (p.surrendered = false → p.value < 21 → d.value ≤ 21 → p.value = d.value →
      (determine_winner p d st).1 = 1) ∧
    (p.surrendered = false → p.value < 21 → d.value ≤ 21 → p.value < d.value →
      (determine_winner p d st).1 = 0) := by
  refine ⟨?_, ?_, ?_, ?_, ?_, ?_, ?_, ?_, ?_, ?_⟩ <;>
    intros <;>
    simp only [determine_winner, Hand.is_bust, decide_eq_true_eq] <;>
    split_ifs <;>
    first
      | rfl
      | omega
      | simp_all

theorem determine_winner_table_witness :
    (determine_winner handSurr Hand.empty Stats.init).1 = 1 / 2 :=
  (determine_winner_table handSurr Hand.empty Stats.init).1 rfl

def hand16 : Hand :=
  { cards := [⟨.J, .hearts⟩, ⟨.N6, .hearts⟩]
    bet := 0, surrendered := false, is_blackjack := false }

lemma should_hit_of_guard (h : Hand) (up : Card) (auto m : Bool)
    (hg : surrGuard h up auto m = true) : should_hit h up auto m = .surrender := by
  unfold should_hit
  rw [if_pos hg]

lemma surrGuard_iff (h : Hand) (up : Card) (auto m : Bool) :
    surrGuard h up auto m = true ↔
      (auto = true ∧ m = true ∧ h.cards.length = 2 ∧ h.is_hard = true ∧
       13 ≤ h.value ∧ h.value ≤ 16 ∧
       (up.rank = .N7 ∨ up.rank = .N8 ∨ up.rank = .N9 ∨ up.rank = .J ∨
        up.rank = .Q ∨ up.rank = .K ∨ up.rank = .A)) := by
  simp only [surrGuard, Bool.and_eq_true, decide_eq_true_eq, surrenderRanks,
    List.mem_cons, List.not_mem_nil, or_false]
  constructor
  · rintro ⟨⟨⟨⟨⟨⟨h1, h2⟩, h3⟩, h4⟩, h5⟩, h6⟩, h7⟩
    exact ⟨h1, h3, h2, h4, h5, h6, h7⟩
  · rintro ⟨h1, h3, h2, h4, h5, h6, h7⟩
    exact ⟨⟨⟨⟨⟨⟨h1, h2⟩, h3⟩, h4⟩, h5⟩, h6⟩, h7⟩

lemma should_hit_no_guard (h : Hand) (up : Card) (auto m : Bool)
    (hg : surrGuard h up auto m = false) : should_hit h up auto m ≠ .surrender := by
  unfold should_hit
  rw [if_neg (by simp [hg])]
  split_ifs <;> simp

set_option maxHeartbeats 1000000 in
/-- C7: should_hit returns surrender exactly when auto-surrender is on, the
top-match flag is set, the hand is a two-card hard 13 to 16 and the dealer
upcard rank is 7, 8, 9, J, Q, K or A; otherwise soft hands hit up to 17, hit
18 exactly against dealer value at least 9, stand on 19 and up, and hard
hands hit up to 11, stand 12 exactly against dealer 4 to 6, stand 13 to 16
exactly against dealer at most 6, and stand on 17 and up. -/
theorem should_hit_table (h : Hand) (up : Card) (auto m : Bool) :
    (should_hit h up auto m = .surrender ↔
      (auto = true ∧ m = true ∧ h.cards.length = 2 ∧ h.is_hard = true ∧
       13 ≤ h.value ∧ h.value ≤ 16 ∧
       (up.rank = .N7 ∨ up.rank = .N8 ∨ up.rank = .N9 ∨ up.rank = .J ∨
        up.rank = .Q ∨ up.rank = .K ∨ up.rank = .A))) ∧
    (h.is_soft = true →
      (h.value ≤ 17 → should_hit h up auto m = .hit) ∧
      (h.value = 18 → 9 ≤ up.value → should_hit h up auto m = .hit) ∧
      (h.value = 18 → up.value < 9 → should_hit h up auto m = .stand) ∧
      (19 ≤ h.value → should_hit h up auto m = .stand)) ∧
    (h.is_soft = false → should_hit h up auto m ≠ .surrender →
      (h.value ≤ 11 → should_hit h up auto m = .hit) ∧
      (h.value = 12 → (up.value = 4 ∨ up.value = 5 ∨ up.value = 6) →
        should_hit h up auto m = .stand) ∧
      (h.value = 12 → ¬(up.value = 4 ∨ up.value = 5 ∨ up.value = 6) →
        should_hit h up auto m = .hit) ∧
      (13 ≤ h.value → h.value ≤ 16 → up.value ≤ 6 → should_hit h up auto m = .stand) ∧
      (13 ≤ h.value → h.value ≤ 16 → 7 ≤ up.value → should_hit h up auto m = .hit) ∧
      (17 ≤ h.value → should_hit h up auto m = .stand)) := by
  refine ⟨?_, fun hsoft => ?_, fun hsoft hne => ?_⟩
  · rw [← surrGuard_iff]
    constructor
    · intro he
      cases hg : surrGuard h up auto m
      · exact absurd he (should_hit_no_guard h up auto m hg)
      · rfl
    · exact should_hit_of_guard h up auto m
  · have hh := soft_not_hard h hsoft
    have h0 : surrGuard h up auto m = false := by
      simp [surrGuard, hh]
    refine ⟨fun hv => ?_, fun hv hd => ?_, fun hv hd => ?_, fun hv => ?_⟩ <;>
      · unfold should_hit
        rw [if_neg (by simp [h0]), if_pos hsoft]
        split_ifs <;> first | rfl | omega
  · have h0 : surrGuard h up auto m = false := by
      cases hg : surrGuard h up auto m
      · rfl
      · exact absurd (should_hit_of_guard h up auto m hg) hne
    refine ⟨fun hv => ?_, fun hv hd => ?_, fun hv hd => ?_, fun hv1 hv2 hd => ?_,
      fun hv1 hv2 hd => ?_, fun hv => ?_⟩ <;>
      · unfold should_hit
        rw [if_neg (by simp [h0]), if_neg (by simp [hsoft])]
        split_ifs <;> first | rfl | omega

theorem should_hit_table_witness :
    should_hit hand16 ⟨.J, .spades⟩ true true = .surrender := by
  have h := should_hit_table hand16 ⟨.J, .spades⟩ true true
  exact h.1.mpr ⟨rfl, rfl, by decide, by decide, by decide, by decide, by decide⟩

/-! Shoe lemmas. -/

lemma oneDeck_length : oneDeck.length = 48 := by decide

lemma fullShoe_length (n : Nat) : (fullShoe n).length = n * 48 := by
  induction n with
  | zero => simp [fullShoe]
  | succ n ih =>
    simp [fullShoe, ih, oneDeck_length]
    omega

lemma reshuffle_length (s : Shoe) (hw : s.WF) :
    (s.reshuffle).cards.length = s.num_decks * 48 := by
  have h := (hw s.reshuffleCount).length_eq
  simp [Shoe.reshuffle, h, fullShoe_length]

lemma dealFrom_isSome (s1 : Shoe) (hlen : 0 < s1.cards.length) :
    (dealFrom s1).isSome = true := by
  unfold dealFrom
  cases hg : s1.cards.getLast? with
  | none =>
    rw [List.getLast?_eq_none_iff] at hg
    simp [hg] at hlen
  | some c => simp

lemma dealFrom_shape (s1 : Shoe) (c : Card) (s' : Shoe) (he : dealFrom s1 = some (c, s')) :
    s'.num_decks = s1.num_decks ∧ s'.shuffles = s1.shuffles ∧
    s'.cards = s1.cards.dropLast := by
  unfold dealFrom at he
  cases hg : s1.cards.getLast? with
  | none => rw [hg] at he; cases he
  | some c0 =>
    rw [hg] at he
    cases he
    exact ⟨rfl, rfl, rfl⟩

lemma deal_pres (s : Shoe) (c : Card) (s' : Shoe) (he : s.deal = some (c, s')) :
    s'.num_decks = s.num_decks ∧ s'.shuffles = s.shuffles := by
  unfold Shoe.deal at he
  by_cases hle : s.cards.length ≤ 50
  · rw [if_pos hle] at he
    have h := dealFrom_shape _ _ _ he
    exact ⟨h.1, h.2.1⟩
  · rw [if_neg hle] at he
    have h := dealFrom_shape _ _ _ he
    exact ⟨h.1, h.2.1⟩

lemma deal_WF' (s : Shoe) (c : Card) (s' : Shoe) (hw : s.WF) (he : s.deal = some (c, s')) :
    s'.WF := by
  obtain ⟨h1, h2⟩ := deal_pres s c s' he
  intro i
  rw [h2, h1]
  exact hw i

lemma deal_isSome (s : Shoe) (hw : s.WF) (hnd : 1 ≤ s.num_decks) :
    (s.deal).isSome = true := by
  unfold Shoe.deal
  by_cases hle : s.cards.length ≤ 50
  · rw [if_pos hle]
    apply dealFrom_isSome
    rw [reshuffle_length s hw]
    omega
  · rw [if_neg hle]
    apply dealFrom_isSome
    omega

/-- C8: Shoe.deal rebuilds and reshuffles the shoe to exactly num_decks * 48
cards whenever at most 50 cards remain, discarding the remainder, then pops
the last card; for num_decks at least 1 the pop is from a non-empty sequence
and deal never fails. -/
theorem deal_never_fails (s : Shoe) (hw : s.WF) (hnd : 1 ≤ s.num_decks) :
    (s.reshuffle).cards.length = s.num_decks * 48 ∧
    (s.deal).isSome = true ∧
    (s.cards.length ≤ 50 →
      ∃ c s', s.deal = some (c, s') ∧ s'.cards.length + 1 = s.num_decks * 48) := by
  refine ⟨reshuffle_length s hw, deal_isSome s hw hnd, fun hle => ?_⟩
  have hsome := deal_isSome s hw hnd
  rw [Option.isSome_iff_exists] at hsome
  obtain ⟨⟨c, s'⟩, he⟩ := hsome
  refine ⟨c, s', he, ?_⟩
  unfold Shoe.deal at he
  rw [if_pos hle] at he
  have h := dealFrom_shape _ _ _ he
  rw [h.2.2, List.length_dropLast, reshuffle_length s hw]
  omega

def shoeW : Shoe :=
  { num_decks := 1, cards := [], shuffles := fun _ => fullShoe 1, reshuffleCount := 0 }

theorem deal_never_fails_witness :
    (shoeW.reshuffle).cards.length = shoeW.num_decks * 48 ∧
    (shoeW.deal).isSome = true := by
  have h := deal_never_fails shoeW (fun i => List.Perm.refl _) (by decide)
  exact ⟨h.1, h.2.1⟩

/-! Termination of the play loops. -/

lemma dealer_hits_big (h : Hand) (hL : 17 ≤ h.cards.length) : dealer_hits h = false := by
  have h1 := length_le_value h
  unfold dealer_hits
  cases hs : h.is_soft
  · simp only [hs, Bool.and_false, Bool.or_false, decide_eq_false_iff_not]
    omega
  · have h2 := soft_lb h hs
    simp only [hs, Bool.and_true, Bool.or_eq_false_iff, decide_eq_false_iff_not]
    omega

lemma play_dealer_succ_eq (fuel : Nat) (h : Hand) (s : Shoe) :
    play_dealer_hand (fuel + 1) h s =
      if dealer_hits h = true then
        match s.deal with
        | none => none
        | some (c, s') => play_dealer_hand fuel (h.add_card c) s'
      else some (h, s) := rfl

lemma play_hand_succ_eq (fuel : Nat) (h : Hand) (up : Card) (auto m : Bool) (s : Shoe) :
    play_hand (fuel + 1) h up auto m s =
      match should_hit h up auto m with
      | .surrender => some ({ h with surrendered := true }, s)
      | .stand => some (h, s)
      | .hit =>
        match s.deal with
        | none => none
        | some (c, s') =>
          if (h.add_card c).is_bust = true then some (h.add_card c, s')
          else play_hand fuel (h.add_card c) up auto m s' := rfl

lemma add_card_length (h : Hand) (c : Card) :
    (h.add_card c).cards.length = h.cards.length + 1 := by
  simp [Hand.add_card]

lemma play_dealer_post : ∀ (fuel : Nat) (h : Hand) (s : Shoe) (hF : Hand) (sF : Shoe),
    play_dealer_hand fuel h s = some (hF, sF) →
    dealer_hits hF = false ∧ h.cards.length ≤ hF.cards.length ∧
    (dealer_hits h = false → hF = h ∧ sF = s) ∧
    (dealer_hits h = true → h.cards.length < hF.cards.length) := by
  intro fuel
  induction fuel with
  | zero => intro h s hF sF he; simp [play_dealer_hand] at he
  | succ fuel ih =>
    intro h s hF sF he
    rw [play_dealer_succ_eq] at he
    cases hdc : dealer_hits h with
    | false =>
      rw [if_neg (by simp [hdc])] at he
      cases he
      exact ⟨hdc, Nat.le_refl _, fun _ => ⟨rfl, rfl⟩, fun hc => by simp [hdc] at hc⟩
    | true =>
      rw [if_pos hdc] at he
      cases hdl : s.deal with
      | none => rw [hdl] at he; simp at he
      | some cs =>
        obtain ⟨c, s'⟩ := cs
        rw [hdl] at he
        obtain ⟨p1, p2, p3, p4⟩ := ih _ _ _ _ he
        have hlen := add_card_length h c
        exact ⟨p1, by omega, fun hc => absurd hc (by simp [hdc]), fun _ => by omega⟩

lemma play_dealer_isSome : ∀ (fuel : Nat) (h : Hand) (s : Shoe), s.WF → 1 ≤ s.num_decks →
    17 ≤ h.cards.length + fuel → (play_dealer_hand (fuel + 1) h s).isSome = true := by
  intro fuel
  induction fuel with
  | zero =>
    intro h s hw hnd hL
    have hd := dealer_hits_big h (by omega)
    rw [play_dealer_succ_eq, if_neg (by simp [hd])]
    rfl
  | succ fuel ih =>
    intro h s hw hnd hL
    rw [play_dealer_succ_eq]
    cases hdc : dealer_hits h with
    | false =>
      rw [if_neg (by simp)]
      rfl
    | true =>
      rw [if_pos rfl]
      have hsome := deal_isSome s hw hnd
      rw [Option.isSome_iff_exists] at hsome
      obtain ⟨⟨c, s'⟩, he⟩ := hsome
      rw [he]
      have hw' := deal_WF' s c s' hw he
      have hnd' : 1 ≤ s'.num_decks := by rw [(deal_pres s c s' he).1]; exact hnd
      have hlen := add_card_length h c
      exact ih (h.add_card c) s' hw' hnd' (by omega)

lemma play_hand_isSome : ∀ (fuel : Nat) (h : Hand) (up : Card) (auto m : Bool) (s : Shoe),
    s.WF → 1 ≤ s.num_decks → 21 ≤ h.cards.length + fuel →
    (play_hand (fuel + 1) h up auto m s).isSome = true := by
  intro fuel
  induction fuel with
  | zero =>
    intro h up auto m s hw hnd hL
    rw [play_hand_succ_eq]
    cases hac : should_hit h up auto m with
    | surrender => rfl
    | stand => rfl
    | hit =>
      have hsome := deal_isSome s hw hnd
      rw [Option.isSome_iff_exists] at hsome
      obtain ⟨⟨c, s'⟩, he⟩ := hsome
      rw [he]
      dsimp only
      have hbust : (h.add_card c).is_bust = true := by
        have hv := length_le_value (h.add_card c)
        have hlen := add_card_length h c
        rw [is_bust_iff]
        omega
      rw [if_pos hbust]
      rfl
  | succ fuel ih =>
    intro h up auto m s hw hnd hL
    rw [play_hand_succ_eq]
    cases hac : should_hit h up auto m with
    | surrender => rfl
    | stand => rfl
    | hit =>
      have hsome := deal_isSome s hw hnd
      rw [Option.isSome_iff_exists] at hsome
      obtain ⟨⟨c, s'⟩, he⟩ := hsome
      rw [he]
      dsimp only
      by_cases hbust : (h.add_card c).is_bust = true
      · rw [if_pos hbust]
        rfl
      · rw [if_neg hbust]
        have hw' := deal_WF' s c s' hw he
        have hnd' : 1 ≤ s'.num_decks := by rw [(deal_pres s c s' he).1]; exact hnd
        have hlen := add_card_length h c
        exact ih (h.add_card c) up auto m s' hw' hnd' (by omega)

def handSoft18 : Hand :=
  { cards := [⟨.A, .hearts⟩, ⟨.N7, .hearts⟩]
    bet := 0, surrendered := false, is_blackjack := false }

/-- C10 counterexample: dealing a 9 to the soft 18 [A,7] lowers the
ace-reduced value from 18 to 17, so a dealt card does not always increase
the value; this situation arises inside the strategy loop because soft 18
hits against dealer value 9. -/
theorem added_card_can_lower_value :
    handSoft18.value = 18 ∧
    should_hit handSoft18 ⟨.N9, .diamonds⟩ false false = .hit ∧
    (handSoft18.add_card ⟨.N9, .spades⟩).value = 17 := by decide

/-- C10 (amended): for every starting hand and well-formed shoe with at
least one deck, the strategy draw loop and the dealer draw loop terminate:
each dealt card grows the hand by one card, the ace-reduced value is at
least the card count, and fuel 22 resp. 18 always suffices for the loops to
return. -/
theorem play_loops_terminate (s : Shoe) (hw : s.WF) (hnd : 1 ≤ s.num_decks)
    (h : Hand) (up : Card) (auto m : Bool) :
    (play_hand 22 h up auto m s).isSome = true ∧
    (play_dealer_hand 18 h s).isSome = true ∧
    h.cards.length ≤ h.value :=
  ⟨play_hand_isSome 21 h up auto m s hw hnd (by omega),
   play_dealer_isSome 17 h s hw hnd (by omega),
   length_le_value h⟩

def shoeT : Shoe :=
  { num_decks := 1, cards := fullShoe 2, shuffles := fun _ => fullShoe 1, reshuffleCount := 0 }

theorem play_loops_terminate_witness :
    (play_hand 22 handHard17 ⟨.N9, .diamonds⟩ false false shoeT).isSome = true ∧
    (play_dealer_hand 18 handHard17 shoeT).isSome = true ∧
    handHard17.cards.length ≤ handHard17.value :=
  play_loops_terminate shoeT (fun i => List.Perm.refl _) (by decide)
    handHard17 ⟨.N9, .diamonds⟩ false false

/-! Outcome-counter accounting. -/

lemma determine_winner_cases (p d : Hand) (st : Stats) :
    (determine_winner p d st).2 = { st with hands_won := st.hands_won + 1 } ∨
    (determine_winner p d st).2 = { st with hands_lost := st.hands_lost + 1 } ∨
    (determine_winner p d st).2 = { st with hands_pushed := st.hands_pushed + 1 } ∨
    (determine_winner p d st).2 = { st with hands_surrendered := st.hands_surrendered + 1 } := by
  unfold determine_winner
  dsimp only
  split_ifs <;>
    first
      | exact Or.inl rfl
      | exact Or.inr (Or.inl rfl)
      | exact Or.inr (Or.inr (Or.inl rfl))
      | exact Or.inr (Or.inr (Or.inr rfl))

lemma determine_winner_counters (p d : Hand) (st : Stats) :
    (determine_winner p d st).2.hands_played = st.hands_played ∧
    (determine_winner p d st).2.hands_won + (determine_winner p d st).2.hands_lost +
        (determine_winner p d st).2.hands_pushed + (determine_winner p d st).2.hands_surrendered
      = st.hands_won + st.hands_lost + st.hands_pushed + st.hands_surrendered + 1 := by
  rcases determine_winner_cases p d st with h | h | h | h <;> rw [h] <;> constructor <;> simp <;> omega

lemma settleOne_counters (h d : Hand) (bj : Bool) (rb : ℚ) (st : Stats) :
    (settleOne h d bj rb st).2.hands_played = st.hands_played ∧
    (settleOne h d bj rb st).2.hands_won + (settleOne h d bj rb st).2.hands_lost +
        (settleOne h d bj rb st).2.hands_pushed + (settleOne h d bj rb st).2.hands_surrendered
      = st.hands_won + st.hands_lost + st.hands_pushed + st.hands_surrendered + 1 := by
  unfold settleOne
  split_ifs with h1 h2
  · exact ⟨rfl, by dsimp only; omega⟩
  · exact ⟨rfl, by dsimp only; omega⟩
  · have hc := determine_winner_counters h d
      { st with total_regular_wagered := st.total_regular_wagered + rb }
    exact ⟨by simpa using hc.1, by simpa using hc.2⟩

lemma settle_counters : ∀ (hands : List Hand) (d : Hand) (bj : Bool) (rb : ℚ) (st : Stats),
    (settle hands d bj rb st).2.hands_played = st.hands_played ∧
    (settle hands d bj rb st).2.hands_won + (settle hands d bj rb st).2.hands_lost +
        (settle hands d bj rb st).2.hands_pushed + (settle hands d bj rb st).2.hands_surrendered
      = st.hands_won + st.hands_lost + st.hands_pushed + st.hands_surrendered + hands.length := by
  intro hands
  induction hands with
  | nil => intro d bj rb st; simp [settle]
  | cons h rest ih =>
    intro d bj rb st
    have h1 := settleOne_counters h d bj rb st
    have h2 := ih d bj rb (settleOne h d bj rb st).2
    simp only [settle, List.length_cons]
    exact ⟨by rw [h2.1, h1.1], by rw [h2.2]; omega⟩

lemma sideBetTop_counters (h : Hand) (c0 : Card) (tb : ℚ) (st : Stats) :
    (sideBetTop h c0 tb st).2.2.hands_played = st.hands_played ∧
    (sideBetTop h c0 tb st).2.2.hands_won = st.hands_won ∧
    (sideBetTop h c0 tb st).2.2.hands_lost = st.hands_lost ∧
    (sideBetTop h c0 tb st).2.2.hands_pushed = st.hands_pushed ∧
    (sideBetTop h c0 tb st).2.2.hands_surrendered = st.hands_surrendered := by
  unfold sideBetTop
  dsimp only
  split_ifs <;> exact ⟨rfl, rfl, rfl, rfl, rfl⟩

lemma sideBetBottom_counters (h : Hand) (c1 : Card) (bb : ℚ) (st : Stats) :
    (sideBetBottom h c1 bb st).2.hands_played = st.hands_played ∧
    (sideBetBottom h c1 bb st).2.hands_won = st.hands_won ∧
    (sideBetBottom h c1 bb st).2.hands_lost = st.hands_lost ∧
    (sideBetBottom h c1 bb st).2.hands_pushed = st.hands_pushed ∧
    (sideBetBottom h c1 bb st).2.hands_surrendered = st.hands_surrendered := by
  unfold sideBetBottom
  dsimp only
  split_ifs <;> exact ⟨rfl, rfl, rfl, rfl, rfl⟩

lemma sideBetOne_counters (h : Hand) (c0 c1 : Card) (tb bb : ℚ) (st : Stats) :
    (sideBetOne h c0 c1 tb bb st).2.2.hands_played = st.hands_played ∧
    (sideBetOne h c0 c1 tb bb st).2.2.hands_won = st.hands_won ∧
    (sideBetOne h c0 c1 tb bb st).2.2.hands_lost = st.hands_lost ∧
    (sideBetOne h c0 c1 tb bb st).2.2.hands_pushed = st.hands_pushed ∧
    (sideBetOne h c0 c1 tb bb st).2.2.hands_surrendered = st.hands_surrendered := by
  have h1 := sideBetTop_counters h c0 tb st
  have h2 := sideBetBottom_counters h c1 bb (sideBetTop h c0 tb st).2.2
  unfold sideBetOne
  refine ⟨?_, ?_, ?_, ?_, ?_⟩ <;> simp only [] <;> omega

lemma evalSideBets_counters : ∀ (hands : List Hand) (c0 c1 : Card) (tb bb : ℚ) (st : Stats),
    (evalSideBets hands c0 c1 tb bb st).2.2.hands_played = st.hands_played ∧
    (evalSideBets hands c0 c1 tb bb st).2.2.hands_won = st.hands_won ∧
    (evalSideBets hands c0 c1 tb bb st).2.2.hands_lost = st.hands_lost ∧
    (evalSideBets hands c0 c1 tb bb st).2.2.hands_pushed = st.hands_pushed ∧
    (evalSideBets hands c0 c1 tb bb st).2.2.hands_surrendered = st.hands_surrendered := by
  intro hands
  induction hands with
  | nil => intro c0 c1 tb bb st; exact ⟨rfl, rfl, rfl, rfl, rfl⟩
  | cons h rest ih =>
    intro c0 c1 tb bb st
    have h1 := sideBetOne_counters h c0 c1 tb bb st
    have h2 := ih c0 c1 tb bb (sideBetOne h c0 c1 tb bb st).2.2
    simp only [evalSideBets]
    omega

lemma evalSideBets_flags : ∀ (hands : List Hand) (c0 c1 : Card) (tb bb : ℚ) (st : Stats),
    (evalSideBets hands c0 c1 tb bb st).1.length = hands.length := by
  intro hands
  induction hands with
  | nil => intro c0 c1 tb bb st; rfl
  | cons h rest ih =>
    intro c0 c1 tb bb st
    simp only [evalSideBets, List.length_cons]
    rw [ih]

lemma dealToEach_length : ∀ (hs : List Hand) (s : Shoe) (hs' : List Hand) (s' : Shoe),
    dealToEach hs s = some (hs', s') → hs'.length = hs.length := by
  intro hs
  induction hs with
  | nil =>
    intro s hs' s' he
    simp only [dealToEach] at he
    cases he
    rfl
  | cons h rest ih =>
    intro s hs' s' he
    simp only [dealToEach] at he
    cases hdl : s.deal with
    | none => rw [hdl] at he; simp at he
    | some cs =>
      obtain ⟨c, s2⟩ := cs
      rw [hdl] at he
      dsimp only at he
      cases hdd : dealToEach rest s2 with
      | none => rw [hdd] at he; simp at he
      | some rs =>
        obtain ⟨rest', s3⟩ := rs
        rw [hdd] at he
        dsimp only at he
        cases he
        simp only [List.length_cons]
        have := ih _ _ _ hdd
        omega

lemma playAll_length : ∀ (prs : List (Hand × Bool)) (up : Card) (auto : Bool) (s : Shoe)
    (hs' : List Hand) (s' : Shoe),
    playAll prs up auto s = some (hs', s') → hs'.length = prs.length := by
  intro prs
  induction prs with
  | nil =>
    intro up auto s hs' s' he
    simp only [playAll] at he
    cases he
    rfl
  | cons p rest ih =>
    intro up auto s hs' s' he
    obtain ⟨h, flag⟩ := p
    simp only [playAll] at he
    cases hstep : (if h.cards.length = 2 ∧ h.value = 21
        then some ({ h with is_blackjack := true }, s)
        else play_hand 22 h up auto flag s) with
    | none => rw [hstep] at he; simp at he
    | some ps =>
      obtain ⟨h', s2⟩ := ps
      rw [hstep] at he
      dsimp only at he
      cases hrest : playAll rest up auto s2 with
      | none => rw [hrest] at he; simp at he
      | some rs =>
        obtain ⟨rest', s3⟩ := rs
        rw [hrest] at he
        dsimp only at he
        cases he
        simp only [List.length_cons]
        have := ih _ _ _ _ _ hrest
        omega

set_option maxHeartbeats 1000000 in
/-- C9: every successful simulate_round call with num_hands player hands
adds exactly num_hands to hands_played, each settled hand increments exactly
one of the won, lost, pushed, surrendered counters, their sum grows by
exactly num_hands, and the invariant won + lost + pushed + surrendered =
played is preserved. -/
theorem round_counter_invariant (num_hands : Nat) (rb tb bb : ℚ) (auto : Bool)
    (st : Stats) (sh : Shoe) (r : RoundResult)
    (hr : simulate_round num_hands rb tb bb auto st sh = some r) :
    r.stats.hands_played = st.hands_played + num_hands ∧
    r.stats.hands_won + r.stats.hands_lost + r.stats.hands_pushed + r.stats.hands_surrendered
      = st.hands_won + st.hands_lost + st.hands_pushed + st.hands_surrendered + num_hands ∧
    (st.hands_won + st.hands_lost + st.hands_pushed + st.hands_surrendered = st.hands_played →
      r.stats.hands_won + r.stats.hands_lost + r.stats.hands_pushed + r.stats.hands_surrendered
        = r.stats.hands_played) ∧
    (∀ (p d : Hand) (st2 : Stats),
      (determine_winner p d st2).2 = { st2 with hands_won := st2.hands_won + 1 } ∨
      (determine_winner p d st2).2 = { st2 with hands_lost := st2.hands_lost + 1 } ∨
      (determine_winner p d st2).2 = { st2 with hands_pushed := st2.hands_pushed + 1 } ∨
      (determine_winner p d st2).2 =
        { st2 with hands_surrendered := st2.hands_surrendered + 1 }) ∧
    (∀ (p d : Hand) (bj : Bool) (rb2 : ℚ) (st2 : Stats),
      (settleOne p d bj rb2 st2).2.hands_played = st2.hands_played ∧
      (settleOne p d bj rb2 st2).2.hands_won + (settleOne p d bj rb2 st2).2.hands_lost +
          (settleOne p d bj rb2 st2).2.hands_pushed +
          (settleOne p d bj rb2 st2).2.hands_surrendered
        = st2.hands_won + st2.hands_lost + st2.hands_pushed + st2.hands_surrendered + 1) ∧
    (∀ (p d : Hand) (st2 : Stats), p.surrendered = true →
      (determine_winner p d st2).2 =
        { st2 with hands_surrendered := st2.hands_surrendered + 1 }) := by
  unfold simulate_round at hr
  cases h1 : dealToEach (List.replicate num_hands { Hand.empty with bet := rb }) sh with
  | none => rw [h1] at hr; simp at hr
  | some p1 =>
    obtain ⟨hands1, shoe1⟩ := p1
    rw [h1] at hr
    dsimp only at hr
    cases h2 : shoe1.deal with
    | none => rw [h2] at hr; simp at hr
    | some p2 =>
      obtain ⟨up, shoe2⟩ := p2
      rw [h2] at hr
      dsimp only at hr
      cases h3 : dealToEach hands1 shoe2 with
      | none => rw [h3] at hr; simp at hr
      | some p3 =>
        obtain ⟨hands2, shoe3⟩ := p3
        rw [h3] at hr
        dsimp only at hr
        cases h4 : shoe3.deal with
        | none => rw [h4] at hr; simp at hr
        | some p4 =>
          obtain ⟨hole, shoe4⟩ := p4
          rw [h4] at hr
          dsimp only at hr
          have hlen1 : hands1.length = num_hands := by
            rw [dealToEach_length _ _ _ _ h1, List.length_replicate]
          have hlen2 : hands2.length = num_hands := by
            rw [dealToEach_length _ _ _ _ h3, hlen1]
          cases h5 : (if (decide (((Hand.empty.add_card up).add_card hole).cards.length = 2) &&
                decide (((Hand.empty.add_card up).add_card hole).value = 21)) = true
              then some (hands2, shoe4)
              else playAll
                (hands2.zip (evalSideBets hands2 up hole tb bb st).1) up auto shoe4) with
          | none => rw [h5] at hr; simp at hr
          | some p5 =>
            obtain ⟨hands3, shoe5⟩ := p5
            rw [h5] at hr
            dsimp only at hr
            have hlen3 : hands3.length = num_hands := by
              by_cases hbj : (decide (((Hand.empty.add_card up).add_card hole).cards.length = 2) &&
                  decide (((Hand.empty.add_card up).add_card hole).value = 21)) = true
              · rw [if_pos hbj] at h5
                cases h5
                exact hlen2
              · rw [if_neg hbj] at h5
                rw [playAll_length _ _ _ _ _ _ h5, List.length_zip,
                  evalSideBets_flags, hlen2, Nat.min_self]
            cases h6 : (if (!(decide (((Hand.empty.add_card up).add_card hole).cards.length = 2) &&
                  decide (((Hand.empty.add_card up).add_card hole).value = 21)) &&
                  hands3.any fun h => !h.is_bust && !h.surrendered) = true
                then play_dealer_hand 18 ((Hand.empty.add_card up).add_card hole) shoe5
                else some ((Hand.empty.add_card up).add_card hole, shoe5)) with
            | none => rw [h6] at hr; simp at hr
            | some p6 =>
              obtain ⟨dealerF, shoe6⟩ := p6
              rw [h6] at hr
              dsimp only at hr
              rw [Option.some_inj] at hr
              subst hr
              have hset := settle_counters hands3 dealerF
                (decide (((Hand.empty.add_card up).add_card hole).cards.length = 2) &&
                  decide (((Hand.empty.add_card up).add_card hole).value = 21)) rb
                (evalSideBets hands2 up hole tb bb st).2.2
              have hside := evalSideBets_counters hands2 up hole tb bb st
              refine ⟨?_, ?_, ?_, determine_winner_cases,
                fun p d bj rb2 st2 => settleOne_counters p d bj rb2 st2,
                fun p d st2 hs => ?_⟩
              · dsimp only
                omega
              · dsimp only
                omega
              · intro hinv
                dsimp only
                omega
              · unfold determine_winner
                rw [if_pos hs]

set_option maxHeartbeats 1000000 in
lemma simulate_round_dealer_gate (num_hands : Nat) (rb tb bb : ℚ) (auto : Bool)
    (st : Stats) (sh : Shoe) (r : RoundResult)
    (hr : simulate_round num_hands rb tb bb auto st sh = some r) :
    ((r.dealer_blackjack = true ∨
        r.player_hands.any (fun h => !h.is_bust && !h.surrendered) = false) →
      r.dealer_hand.cards.length = 2) ∧
    (r.dealer_blackjack = false →
      r.player_hands.any (fun h => !h.is_bust && !h.surrendered) = true →
      dealer_hits r.dealer_hand = false) := by
  unfold simulate_round at hr
  cases h1 : dealToEach (List.replicate num_hands { Hand.empty with bet := rb }) sh with
  | none => rw [h1] at hr; simp at hr
  | some p1 =>
    obtain ⟨hands1, shoe1⟩ := p1
    rw [h1] at hr
    dsimp only at hr
    cases h2 : shoe1.deal with
    | none => rw [h2] at hr; simp at hr
    | some p2 =>
      obtain ⟨up, shoe2⟩ := p2
      rw [h2] at hr
      dsimp only at hr
      cases h3 : dealToEach hands1 shoe2 with
      | none => rw [h3] at hr; simp at hr
      | some p3 =>
        obtain ⟨hands2, shoe3⟩ := p3
        rw [h3] at hr
        dsimp only at hr
        cases h4 : shoe3.deal with
        | none => rw [h4] at hr; simp at hr
        | some p4 =>
          obtain ⟨hole, shoe4⟩ := p4
          rw [h4] at hr
          dsimp only at hr
          cases h5 : (if (decide (((Hand.empty.add_card up).add_card hole).cards.length = 2) &&
                decide (((Hand.empty.add_card up).add_card hole).value = 21)) = true
              then some (hands2, shoe4)
              else playAll
                (hands2.zip (evalSideBets hands2 up hole tb bb st).1) up auto shoe4) with
          | none => rw [h5] at hr; simp at hr
          | some p5 =>
            obtain ⟨hands3, shoe5⟩ := p5
            rw [h5] at hr
            dsimp only at hr
            cases h6 : (if (!(decide (((Hand.empty.add_card up).add_card hole).cards.length = 2) &&
                  decide (((Hand.empty.add_card up).add_card hole).value = 21)) &&
                  hands3.any fun h => !h.is_bust && !h.surrendered) = true
                then play_dealer_hand 18 ((Hand.empty.add_card up).add_card hole) shoe5
                else some ((Hand.empty.add_card up).add_card hole, shoe5)) with
            | none => rw [h6] at hr; simp at hr
            | some p6 =>
              obtain ⟨dealerF, shoe6⟩ := p6
              rw [h6] at hr
              dsimp only at hr
              rw [Option.some_inj] at hr
              subst hr
              dsimp only
              cases hg : (!(decide (((Hand.empty.add_card up).add_card hole).cards.length = 2) &&
                  decide (((Hand.empty.add_card up).add_card hole).value = 21)) &&
                  hands3.any fun h => !h.is_bust && !h.surrendered) with
              | false =>
                rw [hg, if_neg (by simp)] at h6
                cases h6
                constructor
                · intro _
                  simp [Hand.add_card, Hand.empty]
                · intro hbj hany
                  rw [hbj, hany] at hg
                  simp at hg
              | true =>
                rw [hg, if_pos rfl] at h6
                have hpost := play_dealer_post 18 _ _ _ _ h6
                rw [Bool.and_eq_true, Bool.not_eq_eq_eq_not, Bool.not_true] at hg
                constructor
                · rintro (hbj | hany)
                  · rw [hbj] at hg
                    simp at hg
                  · rw [hany] at hg
                    simp at hg
                · intro _ _
                  exact hpost.1

def handA6 : Hand :=
  { cards := [⟨.A, .hearts⟩, ⟨.N6, .hearts⟩]
    bet := 0, surrendered := false, is_blackjack := false }

def shoeC6 : Shoe :=
  { num_decks := 2
    cards := List.replicate 51 (⟨.N2, .clubs⟩ : Card) ++
      [⟨.J, .spades⟩, ⟨.J, .hearts⟩, ⟨.A, .spades⟩, ⟨.A, .hearts⟩]
    shuffles := fun _ => []
    reshuffleCount := 0 }

def roundC6 : RoundResult :=
  (simulate_round 1 10 0 0 false Stats.init shoeC6).getD default

/-- C6: the dealer draws exactly while the hand value is below 17 or equals
17 while soft (soft 17 [A,6] draws again, hard 17 [J,7] stands, a finished
dealer hand never satisfies the draw condition, an unconditioned hand is
left untouched), and in simulate_round the dealer draw loop runs only when
the dealer was not dealt a blackjack and at least one player hand is neither
bust nor surrendered. -/
theorem dealer_draw_rule :
    (dealer_hits handA6 = true ∧ dealer_hits handHard17 = false) ∧
    (∀ (fuel : Nat) (h : Hand) (s : Shoe) (hF : Hand) (sF : Shoe),
      play_dealer_hand fuel h s = some (hF, sF) →
      dealer_hits hF = false ∧
      (dealer_hits h = false → hF = h ∧ sF = s) ∧
      (dealer_hits h = true → h.cards.length < hF.cards.length)) ∧
    (∀ (num_hands : Nat) (rb tb bb : ℚ) (auto : Bool) (st : Stats) (sh : Shoe)
        (r : RoundResult),
      simulate_round num_hands rb tb bb auto st sh = some r →
      ((r.dealer_blackjack = true ∨
          r.player_hands.any (fun h => !h.is_bust && !h.surrendered) = false) →
        r.dealer_hand.cards.length = 2) ∧
      (r.dealer_blackjack = false →
        r.player_hands.any (fun h => !h.is_bust && !h.surrendered) = true →
        dealer_hits r.dealer_hand = false)) := by
  refine ⟨by decide, ?_, ?_⟩
  · intro fuel h s hF sF he
    have hpost := play_dealer_post fuel h s hF sF he
    exact ⟨hpost.1, hpost.2.2.1, hpost.2.2.2⟩
  · intro num_hands rb tb bb auto st sh r hr
    exact simulate_round_dealer_gate num_hands rb tb bb auto st sh r hr

theorem dealer_draw_rule_witness :
    roundC6.dealer_hand.cards.length = 2 := by
  have h := dealer_draw_rule
  exact (h.2.2 1 10 0 0 false Stats.init shoeC6 roundC6 rfl).1 (Or.inl (by decide))

def shoeC1 : Shoe :=
  { num_decks := 2
    cards := List.replicate 51 (⟨.N2, .clubs⟩ : Card) ++
      [⟨.J, .spades⟩, ⟨.J, .hearts⟩, ⟨.A, .spades⟩, ⟨.A, .hearts⟩]
    shuffles := fun _ => []
    reshuffleCount := 0 }

/-- C1 (code bug): one player hand is dealt the natural [A hearts, J hearts]
against the dealer natural [A spades, J spades]; the dealer-blackjack branch
counts the natural player hand as lost with zero payout instead of a push
returning the bet, because the is_blackjack flag is only ever set in the
non-dealer-blackjack branch and is still false here. -/
theorem dealer_blackjack_push_is_dead_code :
    (simulate_round 1 10 0 0 false Stats.init shoeC1).map (fun r =>
        (r.dealer_blackjack,
         r.player_hands.map (fun h => (h.cards.length, h.value, h.is_blackjack)),
         r.stats.hands_lost, r.stats.hands_pushed, r.stats.hands_won, r.payout))
      = some (true, [(2, 21, false)], 1, 0, 0, 0) := by with_unfolding_all rfl

def shoeC9 : Shoe :=
  { num_decks := 2
    cards := List.replicate 51 (⟨.N2, .clubs⟩ : Card) ++
      [⟨.N8, .diamonds⟩, ⟨.N7, .hearts⟩, ⟨.N9, .clubs⟩, ⟨.J, .hearts⟩]
    shuffles := fun _ => []
    reshuffleCount := 0 }

def roundC9 : RoundResult :=
  (simulate_round 1 10 0 0 false Stats.init shoeC9).getD default

theorem round_counter_invariant_witness :
    roundC9.stats.hands_played = Stats.init.hands_played + 1 ∧
    roundC9.stats.hands_won + roundC9.stats.hands_lost + roundC9.stats.hands_pushed +
        roundC9.stats.hands_surrendered = roundC9.stats.hands_played := by
  have h := round_counter_invariant 1 10 0 0 false Stats.init shoeC9 roundC9 rfl
  exact ⟨h.1, h.2.2.1 rfl⟩

end Spanish21
